import Mathlib

/-!
Shallow embedding of the hcat template-rendering library core, checked against
its natural-language specification.

Conventions used throughout:
* Go channels: the dependency stop channel is only ever closed (never sent on),
  so its state is a single `Bool` (`true` = closed).  `close` on a closed
  channel panics in Go; that is modelled by `GoResult.panicked`.
* Network I/O is abstracted: `Fetch` receives the would-be result of the
  Consul round-trip as an `Except` argument, and additionally reports whether
  the network call was issued at all (the second, `Bool` component).
* Machine integers of the source are small counters and durations; they are
  modelled as `Nat`/`Int`, with `Rat` for the second-valued sleep durations.
-/

namespace Hcat

/-- Outcome of a Go statement that can panic (close of a closed channel). -/
inductive GoResult (α : Type) : Type
  | ok (a : α)
  | panicked
deriving DecidableEq, Repr

/-- Go `close` on a channel whose state is `closed : Bool`: a second close
panics at runtime. -/
def closeChan (closed : Bool) : GoResult Bool :=
  if closed then .panicked else .ok true

/-! ## Health service dependency (src/unnamed/part_003, `health_service.go`) -/

def HealthAny : String := "any"

def HealthPassing : String := "passing"

def HealthWarning : String := "warning"

def HealthCritical : String := "critical"

def HealthMaint : String := "maintenance"

/-- `HealthServiceQuery` from the source.  The Go struct also carries the
stop channel (`stopCh`) and query options (`opts`); the channel state is
threaded explicitly as a `Bool` into `Stop`/`Fetch`, and `opts` only feeds the
abstracted network call, so neither is a field here. -/
structure HealthServiceQuery where
  dc : String
  filters : List String
  name : String
  near : String
  tag : String
  connect : Bool
deriving DecidableEq, Repr

/-- Named captures of `HealthServiceQueryRe`. -/
structure HealthCaptures where
  tag : String
  name : String
  dc : String
  near : String
  filter : String
deriving DecidableEq, Repr

/-- Split a character list at the first occurrence of `c`; `none` when `c`
does not occur.  The separator is dropped. -/
def splitFirst (c : Char) : List Char → Option (List Char × List Char)
  | [] => none
  | x :: xs =>
    if x = c then some ([], xs)
    else (splitFirst c xs).map (fun p => (x :: p.1, p.2))

/-- Split a character list at the last occurrence of `c` (the greedy
`tag.name` split of the regex). -/
def splitLast (c : Char) (l : List Char) : Option (List Char × List Char) :=
  (splitFirst c l.reverse).map (fun p => (p.2.reverse, p.1.reverse))

/-- Final stage of the grammar: `[tag.]name`.  The tag is everything before
the last dot (the regex tag class admits dots, the name class does not), and
both tag (when present) and name must be nonempty. -/
def parseTagName (base : List Char) (dc near filter : List Char) :
    Option HealthCaptures :=
  match splitLast '.' base with
  | none => if base = [] then none else some ⟨"", ⟨base⟩, ⟨dc⟩, ⟨near⟩, ⟨filter⟩⟩
  | some (t, n) =>
    if t = [] then none
    else if n = [] then none
    else some ⟨⟨t⟩, ⟨n⟩, ⟨dc⟩, ⟨near⟩, ⟨filter⟩⟩

/-- Optional `@dc` clause. -/
def parseDc (base : List Char) (near filter : List Char) :
    Option HealthCaptures :=
  match splitFirst '@' base with
  | none => parseTagName base [] near filter
  | some (b, d) => if d = [] then none else parseTagName b d near filter

/-- Optional `~near` clause. -/
def parseNear (base : List Char) (filter : List Char) : Option HealthCaptures :=
  match splitFirst '~' base with
  | none => parseDc base [] filter
  | some (b, n) => if n = [] then none else parseDc b n filter

/-- Modelled from the spec: the health-service query grammar
`[tag.]name[@dc][~near][|filter[,filter...]]` (spec section 6).  The concrete
regex fragments `tagRe`, `serviceNameRe`, `dcRe`, `nearRe`, `filterRe` are not
under src/ (only their composition into `HealthServiceQueryRe` is), so this
parser follows the spec's grammar: the clauses are separated by the literal
delimiters `|`, `~`, `@` and `.`, each named capture must be nonempty when its
introducing delimiter is present, and the spec fixes no further character
classes. -/
def parseHealthQuery (s : String) : Option HealthCaptures :=
  match splitFirst '|' s.toList with
  | none => parseNear s.toList []
  | some (b, f) => if f = [] then none else parseNear b f

/-- Go `strings.TrimSpace`. -/
def trimSpace (s : String) : String :=
  ⟨((s.data.dropWhile Char.isWhitespace).reverse.dropWhile
      Char.isWhitespace).reverse⟩

/-- Go `strings.Split(s, ",")` on the underlying characters. -/
def splitComma : List Char → List (List Char)
  | [] => [[]]
  | c :: rest =>
    if c = ',' then [] :: splitComma rest
    else
      match splitComma rest with
      | [] => [[c]]
      | g :: gs => (c :: g) :: gs

/-- The comma-separated, space-trimmed filter tokens of a filter capture. -/
def filterTokens (filter : String) : List String :=
  (splitComma filter.data).map (fun g => trimSpace ⟨g⟩)

/-- The `switch` arms of `healthServiceQuery`: the five admissible health
filter names. -/
def isValidFilter (f : String) : Bool :=
  f = HealthAny || f = HealthPassing || f = HealthWarning ||
    f = HealthCritical || f = HealthMaint

/-- The filter-collecting loop of `healthServiceQuery`: valid names are kept
in order, empty tokens are skipped, anything else aborts with an error
(`none`). -/
def collectFilters : List String → Option (List String)
  | [] => some []
  | f :: rest =>
    if isValidFilter f then (collectFilters rest).map (f :: ·)
    else if f = "" then collectFilters rest
    else none

/-- Filter handling of `healthServiceQuery` (src/unnamed/part_003 lines
182-203): an absent filter capture defaults to `[passing]`; otherwise the
tokens are validated and sorted (`sort.Strings`). -/
def processFilter (filter : String) : Option (List String) :=
  if filter = "" then some [HealthPassing]
  else (collectFilters (filterTokens filter)).map
    (List.insertionSort (fun a b : String => a ≤ b))

/-- Construction errors of the health-service query parser. -/
inductive QueryError : Type
  | invalidFormat (s : String)
  | invalidFilter (s : String)
deriving DecidableEq, Repr

/-- The private constructor `healthServiceQuery` of the source: regex match,
filter validation, then the query record (its fresh stop channel starts
open). -/
def healthServiceQuery (s : String) (connect : Bool) :
    Except QueryError HealthServiceQuery :=
  match parseHealthQuery s with
  | none => .error (.invalidFormat s)
  | some m =>
    match processFilter m.filter with
    | none => .error (.invalidFilter s)
    | some filters =>
      .ok { dc := m.dc, filters := filters, name := m.name, near := m.near,
            tag := m.tag, connect := connect }

/-- `NewHealthServiceQuery` from the source. -/
def NewHealthServiceQuery (s : String) : Except QueryError HealthServiceQuery :=
  healthServiceQuery s false

/-- `NewHealthConnectQuery` from the source. -/
def NewHealthConnectQuery (s : String) : Except QueryError HealthServiceQuery :=
  healthServiceQuery s true

/-- One `*consulapi.ServiceEntry` of the server response, restricted to the
fields `Fetch` reads.  The Consul client is outside the core (spec section 1),
so `entry.Checks.AggregatedStatus()` is carried as the precomputed field
`aggregatedStatus`.  The opaque map-valued pass-through fields
(`TaggedAddresses`, `Meta`, `Weights`, `Namespace`, the raw check list) play
no role in any claim and are omitted. -/
structure ConsulEntry where
  nodeName : String
  nodeID : String
  nodeAddress : String
  nodeDatacenter : String
  serviceID : String
  serviceName : String
  serviceAddress : String
  servicePort : Nat
  serviceTags : List String
  aggregatedStatus : String
deriving DecidableEq, Repr

/-- `dep.HealthService`, restricted to the fields built by `Fetch` from the
modelled entry fields. -/
structure HealthService where
  node : String
  nodeID : String
  nodeAddress : String
  nodeDatacenter : String
  address : String
  id : String
  name : String
  tags : List String
  status : String
  port : Nat
deriving DecidableEq, Repr

/-- `acceptStatus` from the source: a status passes when it is listed or the
list contains `any`. -/
def acceptStatus (list : List String) (s : String) : Bool :=
  list.any (fun status => status = s || status = HealthAny)

/-- The `dep.HealthService` record built for one accepted entry in `Fetch`
(src/unnamed/part_003 lines 262-287).  The address is the service address,
falling back to the node address when the service one is empty;
`deepCopyAndSortTags` sorts a copy of the tag list. -/
def mkHealthService (e : ConsulEntry) : HealthService :=
  { node := e.nodeName
    nodeID := e.nodeID
    nodeAddress := e.nodeAddress
    nodeDatacenter := e.nodeDatacenter
    address := if e.serviceAddress = "" then e.nodeAddress else e.serviceAddress
    id := e.serviceID
    name := e.serviceName
    tags := List.insertionSort (fun a b : String => a ≤ b) e.serviceTags
    status := e.aggregatedStatus
    port := e.servicePort }

/-- The entry loop of `Fetch`: client-side filtering by aggregated status,
then the record construction, preserving server order. -/
def processEntries (filters : List String) (entries : List ConsulEntry) :
    List HealthService :=
  (entries.filter (fun e => acceptStatus filters e.aggregatedStatus)).map
    mkHealthService

/-- The ordering of `ByNodeThenID.Less` from the source:
`Node < Node ∨ (Node = Node ∧ ID ≤ ID)` (note the source's `<=` on IDs). -/
def byNodeThenID (a b : HealthService) : Prop :=
  a.node < b.node ∨ (a.node = b.node ∧ a.id ≤ b.id)

instance : DecidableRel byNodeThenID := fun a b =>
  inferInstanceAs
    (Decidable (a.node < b.node ∨ (a.node = b.node ∧ a.id ≤ b.id)))

instance : IsTotal HealthService byNodeThenID where
  total a b := by
    rcases lt_trichotomy a.node b.node with h | h | h
    · exact Or.inl (Or.inl h)
    · rcases le_total a.id b.id with h' | h'
      · exact Or.inl (Or.inr ⟨h, h'⟩)
      · exact Or.inr (Or.inr ⟨h.symm, h'⟩)
    · exact Or.inr (Or.inl h)

instance : IsTrans HealthService byNodeThenID where
  trans _ _ _ hab hbc := by
    rcases hab with h1 | ⟨h1, h1'⟩ <;> rcases hbc with h2 | ⟨h2, h2'⟩
    · exact Or.inl (h1.trans h2)
    · exact Or.inl (h2 ▸ h1)
    · exact Or.inl (h1 ▸ h2)
    · exact Or.inr ⟨h1.trans h2, h1'.trans h2'⟩

/-- The list a successful `Fetch` returns, given the entries the server sent
back: filter and build the records, then sort by `(Node, ID)` unless the user
explicitly asked for nearness (src/unnamed/part_003 lines 292-295). -/
def healthFetchList (d : HealthServiceQuery) (entries : List ConsulEntry) :
    List HealthService :=
  let list := processEntries d.filters entries
  if d.near = "" then List.insertionSort byNodeThenID list else list

/-- Errors out of `HealthServiceQuery.Fetch`: the `ErrStopped` sentinel, or a
network error wrapped with the query's string form. -/
inductive FetchError : Type
  | stopped
  | wrapped (msg : String)
deriving DecidableEq, Repr

/-- `HealthServiceQuery.Fetch`.  `stopClosed` is the state of the query's
stop channel; `net` is the outcome the Consul round-trip would produce.  The
second component records whether the network call was issued: the `select` on
`d.stopCh` happens first, so a closed channel short-circuits to `ErrStopped`
with no I/O. -/
def HealthServiceQuery.Fetch (d : HealthServiceQuery) (stopClosed : Bool)
    (net : Except String (List ConsulEntry)) :
    Except FetchError (List HealthService) × Bool :=
  if stopClosed then (.error .stopped, false)
  else
    match net with
    | .error e => (.error (.wrapped e), true)
    | .ok entries => (.ok (healthFetchList d entries), true)

/-- `HealthServiceQuery.Stop` from the source: `close(d.stopCh)`, acting on
the channel state. -/
def HealthServiceQuery.Stop (stopClosed : Bool) : GoResult Bool :=
  closeChan stopClosed

/-! ## Vault lease wait (tested by `TestVaultRenewDuration`) -/

/-- `dep.Secret` restricted to the inputs of `leaseCheckWait`.  The `Data`
map entries the function reads are lifted to optional fields; `secretId`
records whether a `secret_id` key is present at all. -/
structure VaultSecret where
  leaseDuration : Nat
  renewable : Bool
  rotationPeriod : Option Int
  ttl : Option Int
  secretId : Bool
  secretIdTtl : Option Int
deriving DecidableEq, Repr

/-- Modelled from the spec: `leaseCheckWait` is not under src/ (only
`TestVaultRenewDuration` is).  Spec section 4.2 gives the four cases; the
random draw is the parameter `r`, uniform over `[0, 1]`, and the result is in
seconds.
* Renewable leases: uniform in `[LeaseDuration/6, LeaseDuration/3]`.
* Non-renewable with `rotation_period` and `ttl` in `Data`: exactly
  `ttl + 1` seconds, capped at `rotation_period`.
* Non-renewable with `secret_id` in `Data`: the spec sentence says sleep
  `secret_id_ttl + 1 s`, but the repository's own test (src/unnamed/part_003
  lines 66-113) pins the result to `[0.85 * (ttl+1), 0.95 * (ttl+1)]`, so a
  positive `secret_id_ttl` sets the base of the non-renewable sleep to
  `ttl + 1` rather than the final value; `0` or missing leaves the base at
  the lease duration, as the spec says.
* Other non-renewable leases (certificates included, whose range the spec
  states in terms of the lease duration): uniform in
  `[0.85 * base, 0.95 * base]`. -/
def leaseCheckWait (s : VaultSecret) (r : ℚ) : ℚ :=
  if s.renewable then
    let ld : ℚ := s.leaseDuration
    ld / 6 + r * (ld / 3 - ld / 6)
  else
    match s.rotationPeriod, s.ttl with
    | some rp, some t => min ((t : ℚ) + 1) (rp : ℚ)
    | _, _ =>
      let base : ℚ :=
        if s.secretId then
          match s.secretIdTtl with
          | some t => if 0 < t then (t : ℚ) + 1 else (s.leaseDuration : ℚ)
          | none => (s.leaseDuration : ℚ)
        else (s.leaseDuration : ℚ)
      base * (85 / 100 + r * (10 / 100))

/-! ## Vault list query (tested by `TestNewVaultListQuery`) -/

/-- `VaultListQuery` restricted to its identity-bearing field (the Go struct
also carries a stop channel, modelled separately as for the health query). -/
structure VaultListQuery where
  path : String
deriving DecidableEq, Repr

/-- Go `strings.Trim(s, "/")`: strip leading and trailing slashes. -/
def trimSlashes (s : String) : String :=
  ⟨((s.data.dropWhile (fun c => c = '/')).reverse.dropWhile
      (fun c => c = '/')).reverse⟩

/-- Modelled from the spec: `NewVaultListQuery` is not under src/ (only its
tests are).  Leading and trailing slashes on the path are normalized away and
an empty path is rejected (spec sections 4.1 and 6); the test
`TestNewVaultListQuery` pins the normalized paths and the error on `""`. -/
def NewVaultListQuery (s : String) : Except String VaultListQuery :=
  let p := trimSlashes s
  if p = "" then .error ("vault.list: invalid format: " ++ s)
  else .ok ⟨p⟩

/-- The query identity `vault.list(path)` (pinned by
`TestVaultListQuery_String`). -/
def VaultListQuery.ID (q : VaultListQuery) : String :=
  "vault.list(" ++ q.path ++ ")"

/-! ## Atomic file write (tested by `TestAtomicWrite`) -/

/-- A path as its list of components. -/
abbrev FilePathParts := List String

/-- The file-system state the atomic writer touches: the set of existing
directories and the files with their contents (an association list where the
most recent write for a path is listed first). -/
structure FileSystem where
  dirs : List FilePathParts
  files : List (FilePathParts × List Nat)
deriving DecidableEq, Repr

/-- Error of the atomic writer. -/
inductive WriteError : Type
  | noParentDir
deriving DecidableEq, Repr

/-- The sentinel `errNoParentDir` the tests compare against. -/
def errNoParentDir : WriteError := .noParentDir

/-- Parent directory of a destination path. -/
def parentDir (p : FilePathParts) : FilePathParts := p.dropLast

/-- Record the written destination file. -/
def writeFile (fs : FileSystem) (dest : FilePathParts) (contents : List Nat) :
    FileSystem :=
  { fs with files := (dest, contents) :: fs.files }

/-- Go `os.MkdirAll`: create the directory and every missing ancestor (all
the leading slices of the path). -/
def mkdirAll (fs : FileSystem) (dir : FilePathParts) : FileSystem :=
  { fs with dirs := fs.dirs ++ dir.inits }

/-- Modelled from the spec: `atomicWrite` is not under src/ (only
`TestAtomicWrite` is).  Per spec section 6, the writer renders the bytes to
the destination, creating missing parent directories when permitted; a
non-existent parent with creation disabled yields the `errNoParentDir`
sentinel and writes nothing.  (Permission preservation and the `.bak`
snapshot concern fields outside this model and no claim.) -/
def atomicWrite (fs : FileSystem) (dest : FilePathParts) (contents : List Nat)
    (createDestDirs : Bool) : Except WriteError FileSystem :=
  if parentDir dest ∈ fs.dirs then .ok (writeFile fs dest contents)
  else if createDestDirs then
    .ok (writeFile (mkdirAll fs (parentDir dest)) dest contents)
  else .error errNoParentDir

/-! ## Resolver (spec sections 3 and 4.5) -/

/-- `ResolveEvent`: the outcome of one resolver pass. -/
structure ResolveEvent where
  contents : List Nat
  complete : Bool
  noChange : Bool
deriving DecidableEq, Repr

/-- The template as the resolver sees it (spec section 3): a function from
the store state to output bytes plus the identities missing during the
attempt, together with the last emitted bytes.  `σ` is the store state; a run
with no intervening publishes is a run against the same `σ` value. -/
structure RTemplate (σ : Type) where
  exec : σ → List Nat × List String
  lastEmitted : Option (List Nat)

/-- Modelled from the spec: `Resolver.Run` is not under src/ (only example
callers are).  Spec section 4.5: execute the template; a non-empty missing
set yields `Complete := false`; otherwise, output bytes equal to the last
emitted bytes yield `{Complete := true, NoChange := true}` and anything else
updates the last emitted bytes and yields `{Complete := true,
NoChange := false}`.  Both complete outcomes carry the output bytes as
`Contents` (spec invariant 4 compares the `Contents` of consecutive complete
runs). -/
def resolverRun {σ : Type} (t : RTemplate σ) (store : σ) :
    ResolveEvent × RTemplate σ :=
  let bytes := (t.exec store).1
  let missing := (t.exec store).2
  if missing = [] then
    if t.lastEmitted = some bytes then
      ({ contents := bytes, complete := true, noChange := true }, t)
    else
      ({ contents := bytes, complete := true, noChange := false },
        { t with lastEmitted := some bytes })
  else ({ contents := [], complete := false, noChange := false }, t)

/-! ## Helper lemmas -/

theorem splitFirst_eq_none {c : Char} : ∀ {l : List Char}, c ∉ l →
    splitFirst c l = none := by
  intro l h
  induction l with
  | nil => rfl
  | cons x xs ih =>
    have hx : ¬x = c := fun hxc => h (hxc ▸ List.mem_cons_self x xs)
    have hxs : c ∉ xs := fun hm => h (List.mem_cons_of_mem x hm)
    simp [splitFirst, hx, ih hxs]

theorem parseTagName_filter {base dc near filt : List Char}
    {m : HealthCaptures} (h : parseTagName base dc near filt = some m) :
    m.filter = ⟨filt⟩ := by
  unfold parseTagName at h
  split at h
  · split at h
    · exact absurd h (by simp)
    · exact (Option.some.inj h) ▸ rfl
  · split at h
    · exact absurd h (by simp)
    · split at h
      · exact absurd h (by simp)
      · exact (Option.some.inj h) ▸ rfl

theorem parseDc_filter {base near filt : List Char} {m : HealthCaptures}
    (h : parseDc base near filt = some m) : m.filter = ⟨filt⟩ := by
  unfold parseDc at h
  split at h
  · exact parseTagName_filter h
  · split at h
    · exact absurd h (by simp)
    · exact parseTagName_filter h

theorem parseNear_filter {base filt : List Char} {m : HealthCaptures}
    (h : parseNear base filt = some m) : m.filter = ⟨filt⟩ := by
  unfold parseNear at h
  split at h
  · exact parseDc_filter h
  · split at h
    · exact absurd h (by simp)
    · exact parseDc_filter h

theorem collectFilters_eq_none {f : String} : ∀ {toks : List String},
    f ∈ toks → isValidFilter f = false → f ≠ "" →
    collectFilters toks = none := by
  intro toks hmem hbad hne
  induction toks with
  | nil => cases hmem
  | cons g gs ih =>
    unfold collectFilters
    rcases List.mem_cons.mp hmem with rfl | hmem'
    · simp [hbad, hne]
    · by_cases hg : isValidFilter g
      · simp [hg, ih hmem']
      · by_cases hge : g = ""
        · simp [hg, hge, ih hmem']
        · simp [hg, hge]

/-! ## Claim theorems -/

/-- C1 counterexample: calling `Stop` a second time is not a no-op.  A first
`Stop` on the open channel closes it, and `Stop` on the already-closed
channel — the state after the first call — panics (Go `close` of a closed
channel), rather than returning unchanged. -/
theorem stop_twice_panics :
    HealthServiceQuery.Stop false = GoResult.ok true ∧
    HealthServiceQuery.Stop true = GoResult.panicked :=
  ⟨rfl, rfl⟩

/-- C1 amended: `Stop` closes the dependency's stop channel, after which
`Fetch` returns the stopped sentinel without network I/O, but a second
`Stop` panics (close of a closed channel) — `Stop` is not idempotent. -/
theorem stop_closes_once_then_panics :
    HealthServiceQuery.Stop false = GoResult.ok true ∧
    HealthServiceQuery.Stop true = GoResult.panicked ∧
    ∀ (d : HealthServiceQuery) (net : Except String (List ConsulEntry)),
      d.Fetch true net = (Except.error FetchError.stopped, false) :=
  ⟨rfl, rfl, fun _ _ => rfl⟩

/-- C2: once `Stop` has succeeded, every subsequent `Fetch` returns the
stopped sentinel, and the network call is never issued (the stop channel is
selected on before any I/O). -/
theorem fetch_after_stop_returns_stopped (d : HealthServiceQuery)
    (st st' : Bool) (net : Except String (List ConsulEntry))
    (h : HealthServiceQuery.Stop st = GoResult.ok st') :
    d.Fetch st' net = (Except.error FetchError.stopped, false) := by
  cases st with
  | false =>
    have : st' = true := by
      simpa [HealthServiceQuery.Stop, closeChan] using h.symm
    subst this
    rfl
  | true => simp [HealthServiceQuery.Stop, closeChan] at h

/-- Witness for C2 at a concrete query and network result. -/
theorem fetch_after_stop_returns_stopped_witness :
    HealthServiceQuery.Fetch ⟨"", [HealthPassing], "web", "", "", false⟩ true
      (Except.ok []) = (Except.error FetchError.stopped, false) :=
  fetch_after_stop_returns_stopped _ false true (Except.ok []) rfl

/-- The renewable secret of `TestVaultRenewDuration`. -/
def secretRenewable100 : VaultSecret :=
  { leaseDuration := 100, renewable := true, rotationPeriod := none,
    ttl := none, secretId := false, secretIdTtl := none }

/-- The plain non-renewable secret of `TestVaultRenewDuration`. -/
def secretPlain100 : VaultSecret :=
  { leaseDuration := 100, renewable := false, rotationPeriod := none,
    ttl := none, secretId := false, secretIdTtl := none }

/-- The rotated secret with `rotation_period = 60`, `ttl = 30`. -/
def secretRotated60 : VaultSecret :=
  { leaseDuration := 100, renewable := false, rotationPeriod := some 60,
    ttl := some 30, secretId := false, secretIdTtl := none }

/-- The rotated secret with `rotation_period = 30`, `ttl = 5`. -/
def secretRotated30 : VaultSecret :=
  { leaseDuration := 100, renewable := false, rotationPeriod := some 30,
    ttl := some 5, secretId := false, secretIdTtl := none }

/-- C3: the pinned lease-wait bounds.  For any random draw `r` in `[0, 1]`:
the renewable secret with lease duration 100 waits in `[16 s, 34 s)`; the
plain non-renewable one waits in `[85 s, 95 s]`; the rotated secrets wait
exactly 31 s and 6 s. -/
theorem leaseCheckWait_pinned_bounds (r : ℚ) (h0 : 0 ≤ r) (h1 : r ≤ 1) :
    (16 ≤ leaseCheckWait secretRenewable100 r ∧
      leaseCheckWait secretRenewable100 r < 34) ∧
    (85 ≤ leaseCheckWait secretPlain100 r ∧
      leaseCheckWait secretPlain100 r ≤ 95) ∧
    leaseCheckWait secretRotated60 r = 31 ∧
    leaseCheckWait secretRotated30 r = 6 := by
  have e1 : leaseCheckWait secretRenewable100 r = 50 / 3 + r * (50 / 3) := by
    show (100 : ℚ) / 6 + r * (100 / 3 - 100 / 6) = 50 / 3 + r * (50 / 3)
    norm_num
  have e2 : leaseCheckWait secretPlain100 r = 85 + r * 10 := by
    show (100 : ℚ) * (85 / 100 + r * (10 / 100)) = 85 + r * 10
    ring
  refine ⟨⟨?_, ?_⟩, ⟨?_, ?_⟩, ?_, ?_⟩
  · rw [e1]; linarith
  · rw [e1]; linarith
  · rw [e2]; linarith
  · rw [e2]; linarith
  · show min ((30 : ℚ) + 1) 60 = 31
    norm_num
  · show min ((5 : ℚ) + 1) 30 = 6
    norm_num

/-- Witness for C3 at the draw `r = 0`. -/
theorem leaseCheckWait_pinned_bounds_witness :
    (16 ≤ leaseCheckWait secretRenewable100 0 ∧
      leaseCheckWait secretRenewable100 0 < 34) ∧
    (85 ≤ leaseCheckWait secretPlain100 0 ∧
      leaseCheckWait secretPlain100 0 ≤ 95) ∧
    leaseCheckWait secretRotated60 0 = 31 ∧
    leaseCheckWait secretRotated30 0 = 6 :=
  leaseCheckWait_pinned_bounds 0 le_rfl (by norm_num)

/-- A non-renewable secret whose `Data` carries `secret_id` with the given
`secret_id_ttl`. -/
def secretIdTtlSecret (ld : Nat) (ttl : Option Int) : VaultSecret :=
  { leaseDuration := ld, renewable := false, rotationPeriod := none,
    ttl := none, secretId := true, secretIdTtl := ttl }

/-- C4 counterexample: with `secret_id_ttl = 60` (so `t + 1 = 61`) and the
random draw 0, `leaseCheckWait` returns `0.85 * 61 = 51.85` seconds, not
exactly 61 — matching the repository's test, which pins the result to
`[0.85 * 61, 0.95 * 61]`. -/
theorem leaseCheckWait_secretId_not_exact :
    leaseCheckWait (secretIdTtlSecret 100 (some 60)) 0 = 1037 / 20 ∧
    (1037 / 20 : ℚ) ≠ 60 + 1 := by
  constructor
  · show ((60 : ℤ) + 1 : ℚ) * (85 / 100 + 0 * (10 / 100)) = 1037 / 20
    norm_num
  · norm_num

/-- C4 amended: a positive `secret_id_ttl` of `t` sets the wait base to
`t + 1` seconds, which the non-renewable draw then scales into
`[0.85 * (t+1), 0.95 * (t+1)]`; a zero or missing `secret_id_ttl` leaves the
base at the lease duration, giving `[0.85 * ld, 0.95 * ld]`. -/
theorem leaseCheckWait_secretId_bounds (ld : Nat) (t : Int) (r : ℚ)
    (h0 : 0 ≤ r) (h1 : r ≤ 1) :
    (0 < t →
      85 / 100 * ((t : ℚ) + 1) ≤
          leaseCheckWait (secretIdTtlSecret ld (some t)) r ∧
        leaseCheckWait (secretIdTtlSecret ld (some t)) r ≤
          95 / 100 * ((t : ℚ) + 1)) ∧
    (85 / 100 * (ld : ℚ) ≤ leaseCheckWait (secretIdTtlSecret ld (some 0)) r ∧
      leaseCheckWait (secretIdTtlSecret ld (some 0)) r ≤
        95 / 100 * (ld : ℚ)) ∧
    (85 / 100 * (ld : ℚ) ≤ leaseCheckWait (secretIdTtlSecret ld none) r ∧
      leaseCheckWait (secretIdTtlSecret ld none) r ≤ 95 / 100 * (ld : ℚ)) := by
  have hld : (0 : ℚ) ≤ (ld : ℚ) := Nat.cast_nonneg ld
  refine ⟨fun ht => ?_, ?_, ?_⟩
  · have hb : (0 : ℚ) ≤ (t : ℚ) + 1 := by
      have : (0 : ℚ) < (t : ℚ) := by exact_mod_cast ht
      linarith
    have e : leaseCheckWait (secretIdTtlSecret ld (some t)) r =
        ((t : ℚ) + 1) * (85 / 100 + r * (10 / 100)) := by
      show (if 0 < t then ((t : ℚ) + 1) else ((ld : ℚ))) *
          (85 / 100 + r * (10 / 100)) = _
      rw [if_pos ht]
    rw [e]
    constructor
    · nlinarith [mul_nonneg hb h0]
    · nlinarith [mul_nonneg hb h0, mul_le_mul_of_nonneg_left h1 hb]
  · have e : leaseCheckWait (secretIdTtlSecret ld (some 0)) r =
        (ld : ℚ) * (85 / 100 + r * (10 / 100)) := by
      show (if (0 : Int) < 0 then ((0 : ℤ) : ℚ) + 1 else ((ld : ℚ))) *
          (85 / 100 + r * (10 / 100)) = _
      norm_num
    rw [e]
    constructor
    · nlinarith [mul_nonneg hld h0]
    · nlinarith [mul_nonneg hld h0, mul_le_mul_of_nonneg_left h1 hld]
  · have e : leaseCheckWait (secretIdTtlSecret ld none) r =
        (ld : ℚ) * (85 / 100 + r * (10 / 100)) := rfl
    rw [e]
    constructor
    · nlinarith [mul_nonneg hld h0]
    · nlinarith [mul_nonneg hld h0, mul_le_mul_of_nonneg_left h1 hld]

/-- Witness for C4 amended at `ld = 100`, `t = 60`, `r = 0`. -/
theorem leaseCheckWait_secretId_bounds_witness :
    85 / 100 * ((60 : ℚ) + 1) ≤
        leaseCheckWait (secretIdTtlSecret 100 (some 60)) 0 ∧
      leaseCheckWait (secretIdTtlSecret 100 (some 60)) 0 ≤
        95 / 100 * ((60 : ℚ) + 1) :=
  (leaseCheckWait_secretId_bounds 100 60 0 le_rfl (by norm_num)).1
    (by norm_num)

/-- C7: `NewVaultListQuery` strips leading and trailing slashes, so
`"/a/b/"` and `"a/b"` produce the same query and the same identity
`vault.list(a/b)`, and the empty path is rejected. -/
theorem newVaultListQuery_normalizes :
    NewVaultListQuery "/a/b/" = NewVaultListQuery "a/b" ∧
    NewVaultListQuery "a/b" = Except.ok ⟨"a/b"⟩ ∧
    VaultListQuery.ID ⟨"a/b"⟩ = "vault.list(a/b)" ∧
    NewVaultListQuery "" = Except.error ("vault.list: invalid format: ") := by
  exact ⟨rfl, rfl, rfl, rfl⟩

/-- C6: the health-service constructor defaults the filter set to exactly
`[passing]` when the query has no filter clause (no `|` occurs in it), and
returns a construction error — producing no query — whenever any nonempty
filter token falls outside `{any, passing, warning, critical,
maintenance}`. -/
theorem healthServiceQuery_default_and_invalid_filters (s : String)
    (c : Bool) :
    (∀ q, healthServiceQuery s c = Except.ok q → '|' ∉ s.toList →
      q.filters = [HealthPassing]) ∧
    (∀ m f, parseHealthQuery s = some m → f ∈ filterTokens m.filter →
      isValidFilter f = false → f ≠ "" →
      healthServiceQuery s c = Except.error (QueryError.invalidFilter s)) := by
  constructor
  · intro q hq hbar
    unfold healthServiceQuery at hq
    cases hp : parseHealthQuery s with
    | none => rw [hp] at hq; exact absurd hq (by simp)
    | some m =>
      rw [hp] at hq
      dsimp only at hq
      have hm : m.filter = "" := by
        unfold parseHealthQuery at hp
        rw [splitFirst_eq_none hbar] at hp
        exact parseNear_filter hp
      rw [hm] at hq
      have hpf : processFilter "" = some [HealthPassing] := rfl
      rw [hpf] at hq
      simp only [Except.ok.injEq] at hq
      rw [← hq]
  · intro m f hp hf hbad hne
    have hmf : m.filter ≠ "" := by
      intro h0
      rw [h0] at hf
      have ht : filterTokens "" = [""] := rfl
      rw [ht] at hf
      exact hne (List.mem_singleton.mp hf)
    have hcf : collectFilters (filterTokens m.filter) = none :=
      collectFilters_eq_none hf hbad hne
    have hpf : processFilter m.filter = none := by
      unfold processFilter
      rw [if_neg hmf, hcf]
      rfl
    unfold healthServiceQuery
    rw [hp]
    dsimp only
    rw [hpf]

/-- Witness for C6: `"web"` has no filter clause and gets exactly
`[passing]`; `"web|banana"` names an unknown filter and errors. -/
theorem healthServiceQuery_default_and_invalid_filters_witness :
    (∃ q, healthServiceQuery "web" false = Except.ok q ∧
      q.filters = [HealthPassing]) ∧
    healthServiceQuery "web|banana" false =
      Except.error (QueryError.invalidFilter "web|banana") := by
  constructor
  · refine ⟨⟨"", [HealthPassing], "web", "", "", false⟩, rfl, ?_⟩
    exact (healthServiceQuery_default_and_invalid_filters "web" false).1 _
      rfl (by decide)
  · exact (healthServiceQuery_default_and_invalid_filters "web|banana"
      false).2 ⟨"", "web", "", "", "banana"⟩ "banana" rfl (by decide)
      (by decide) (by decide)

/-- C5: a successful `Fetch` returns a list that is sorted by `(Node, ID)`
(non-decreasing, as a permutation of the filtered entries) when `near` is
empty, and is exactly the filtered entries in server order when `near` was
set. -/
theorem healthServiceFetch_sort_order (d : HealthServiceQuery)
    (entries : List ConsulEntry) (l : List HealthService) (called : Bool)
    (h : d.Fetch false (Except.ok entries) = (Except.ok l, called)) :
    (d.near = "" → List.Sorted byNodeThenID l ∧
      l.Perm (processEntries d.filters entries)) ∧
    (d.near ≠ "" → l = processEntries d.filters entries) := by
  have hfl : healthFetchList d entries =
      if d.near = "" then
        List.insertionSort byNodeThenID (processEntries d.filters entries)
      else processEntries d.filters entries := rfl
  have hl : healthFetchList d entries = l := by
    have h1 := congrArg Prod.fst h
    simpa [HealthServiceQuery.Fetch] using h1
  subst hl
  rw [hfl]
  constructor
  · intro hnear
    rw [if_pos hnear]
    exact ⟨List.sorted_insertionSort byNodeThenID _,
      List.perm_insertionSort byNodeThenID _⟩
  · intro hnear
    rw [if_neg hnear]

/-- A concrete query used by the witnesses: `health.service(web|passing)`
with no datacenter, tag or nearness. -/
def exampleQuery : HealthServiceQuery :=
  { dc := "", filters := [HealthPassing], name := "web", near := "",
    tag := "", connect := false }

/-- Two concrete passing entries whose nodes are out of order. -/
def entryNodeB : ConsulEntry :=
  { nodeName := "b", nodeID := "n2", nodeAddress := "10.0.0.2",
    nodeDatacenter := "dc1", serviceID := "s2", serviceName := "web",
    serviceAddress := "1.1.1.1", servicePort := 80, serviceTags := [],
    aggregatedStatus := "passing" }

def entryNodeA : ConsulEntry :=
  { nodeName := "a", nodeID := "n1", nodeAddress := "10.0.0.1",
    nodeDatacenter := "dc1", serviceID := "s1", serviceName := "web",
    serviceAddress := "", servicePort := 80, serviceTags := [],
    aggregatedStatus := "passing" }

/-- Witness for C5 on a concrete fetch with `near` empty. -/
theorem healthServiceFetch_sort_order_witness :
    List.Sorted byNodeThenID
      (healthFetchList exampleQuery [entryNodeB, entryNodeA]) ∧
    (healthFetchList exampleQuery [entryNodeB, entryNodeA]).Perm
      (processEntries exampleQuery.filters [entryNodeB, entryNodeA]) :=
  (healthServiceFetch_sort_order exampleQuery [entryNodeB, entryNodeA] _
    true rfl).1 rfl

/-- C10: every record of a successful `Fetch` takes its `Address` from the
service when that address is nonempty and from the node otherwise, so the
`Address` is never empty while the node has an address. -/
theorem healthServiceFetch_address_fallback (d : HealthServiceQuery)
    (entries : List ConsulEntry) (l : List HealthService) (called : Bool)
    (hs : HealthService)
    (h : d.Fetch false (Except.ok entries) = (Except.ok l, called))
    (hmem : hs ∈ l) :
    (∃ e, e ∈ entries ∧ hs.nodeAddress = e.nodeAddress ∧
      hs.address =
        (if e.serviceAddress = "" then e.nodeAddress
          else e.serviceAddress)) ∧
    (hs.nodeAddress ≠ "" → hs.address ≠ "") := by
  have hl : healthFetchList d entries = l := by
    have h1 := congrArg Prod.fst h
    simpa [HealthServiceQuery.Fetch] using h1
  subst hl
  have hfl : healthFetchList d entries =
      if d.near = "" then
        List.insertionSort byNodeThenID (processEntries d.filters entries)
      else processEntries d.filters entries := rfl
  rw [hfl] at hmem
  have hmem' : hs ∈ processEntries d.filters entries := by
    by_cases hnear : d.near = ""
    · rw [if_pos hnear] at hmem
      exact (List.mem_insertionSort byNodeThenID).mp hmem
    · rw [if_neg hnear] at hmem
      exact hmem
  unfold processEntries at hmem'
  rcases List.mem_map.mp hmem' with ⟨e, he, rfl⟩
  have heE : e ∈ entries := (List.mem_filter.mp he).1
  refine ⟨⟨e, heE, rfl, rfl⟩, ?_⟩
  intro hne
  by_cases hsa : e.serviceAddress = ""
  · show (if e.serviceAddress = "" then e.nodeAddress
      else e.serviceAddress) ≠ ""
    rw [if_pos hsa]
    exact hne
  · show (if e.serviceAddress = "" then e.nodeAddress
      else e.serviceAddress) ≠ ""
    rw [if_neg hsa]
    exact hsa

/-- Witness for C10 at an entry whose service address is empty: the record
falls back to the node address `10.0.0.1`. -/
theorem healthServiceFetch_address_fallback_witness :
    (∃ e, e ∈ [entryNodeA] ∧
      (mkHealthService entryNodeA).nodeAddress = e.nodeAddress ∧
      (mkHealthService entryNodeA).address =
        (if e.serviceAddress = "" then e.nodeAddress
          else e.serviceAddress)) ∧
    ((mkHealthService entryNodeA).nodeAddress ≠ "" →
      (mkHealthService entryNodeA).address ≠ "") :=
  healthServiceFetch_address_fallback exampleQuery [entryNodeA] _ true
    (mkHealthService entryNodeA) rfl (by decide)

/-- C8: an atomic write whose destination parent is missing returns the
`errNoParentDir` sentinel (and no new file-system state) when parent
creation is disabled, and with creation enabled succeeds, creating every
missing parent directory, so the destination file exists afterwards. -/
theorem atomicWrite_missing_parent (fs : FileSystem) (dest : FilePathParts)
    (contents : List Nat) (h : parentDir dest ∉ fs.dirs) :
    atomicWrite fs dest contents false = Except.error errNoParentDir ∧
    ∃ fs', atomicWrite fs dest contents true = Except.ok fs' ∧
      dest ∈ fs'.files.map Prod.fst ∧
      ∀ p, p ∈ (parentDir dest).inits → p ∈ fs'.dirs := by
  constructor
  · unfold atomicWrite
    rw [if_neg h]
    rfl
  · refine ⟨writeFile (mkdirAll fs (parentDir dest)) dest contents, ?_, ?_, ?_⟩
    · unfold atomicWrite
      rw [if_neg h]
      rfl
    · simp [writeFile]
    · intro p hp
      simp only [writeFile, mkdirAll, List.mem_append]
      exact Or.inr hp

/-- Witness for C8 at the empty file system and the test's destination
path. -/
theorem atomicWrite_missing_parent_witness :
    atomicWrite ⟨[], []⟩ ["nope", "not", "it", "create"] [] false =
      Except.error errNoParentDir ∧
    ∃ fs', atomicWrite ⟨[], []⟩ ["nope", "not", "it", "create"] [] true =
      Except.ok fs' ∧
      ["nope", "not", "it", "create"] ∈ fs'.files.map Prod.fst ∧
      ∀ p, p ∈ (parentDir ["nope", "not", "it", "create"]).inits →
        p ∈ fs'.dirs :=
  atomicWrite_missing_parent ⟨[], []⟩ ["nope", "not", "it", "create"] []
    (by decide)

/-- A template whose execution always misses the dependency `"x"`. -/
def stuckTemplate : RTemplate Unit :=
  { exec := fun _ => ([], ["x"]), lastEmitted := none }

/-- C9 counterexample: the first of two consecutive runs need not return
`Complete = true` — a template with a missing value yields
`Complete = false` on its first run (and on every later run while nothing
is published). -/
theorem resolverRun_first_not_complete :
    (resolverRun stuckTemplate ()).1.complete = false :=
  rfl

/-- C9 amended: when the first of two consecutive runs against the same
store is Complete, the second yields identical `Contents` with
`Complete = true` and `NoChange = true`; in general `Complete` holds iff the
pass produced no missing values, and `NoChange` holds iff the pass is
complete and its bytes equal the previously emitted complete bytes. -/
theorem resolverRun_noChange_idempotent {σ : Type} (t : RTemplate σ)
    (st : σ) :
    ((resolverRun t st).1.complete = true →
      (resolverRun t st).1.contents =
        (resolverRun (resolverRun t st).2 st).1.contents ∧
      (resolverRun (resolverRun t st).2 st).1.complete = true ∧
      (resolverRun (resolverRun t st).2 st).1.noChange = true) ∧
    ((resolverRun t st).1.complete = true ↔ (t.exec st).2 = []) ∧
    ((resolverRun t st).1.noChange = true ↔
      ((t.exec st).2 = [] ∧ t.lastEmitted = some (t.exec st).1)) := by
  by_cases h1 : (t.exec st).2 = []
  · by_cases h2 : t.lastEmitted = some (t.exec st).1
    · simp [resolverRun, h1, h2]
    · simp [resolverRun, h1, h2]
  · simp [resolverRun, h1]

/-- A template that completes with the bytes `[7]` on every run. -/
def okTemplate : RTemplate Unit :=
  { exec := fun _ => ([7], []), lastEmitted := none }

/-- Witness for C9 amended: two consecutive runs of the completing template
agree on `Contents` and the second reports no change. -/
theorem resolverRun_noChange_idempotent_witness :
    (resolverRun okTemplate ()).1.contents =
      (resolverRun (resolverRun okTemplate ()).2 ()).1.contents ∧
    (resolverRun (resolverRun okTemplate ()).2 ()).1.complete = true ∧
    (resolverRun (resolverRun okTemplate ()).2 ()).1.noChange = true :=
  (resolverRun_noChange_idempotent okTemplate ()).1 rfl

end Hcat
